import Mathlib

set_option maxHeartbeats 1000000
set_option maxRecDepth 100000

/-! Shallow embedding of the biomechanical angle-estimation and dynamic
stability analysis engine of `src/utils/geometryUtils.ts`.  Angle samples,
scores and thresholds are modelled as exact rationals; the trigonometric
geometry primitives are modelled over the reals.  JavaScript arrays with
`push`/`shift` become Lean lists appending at the back and dropping at the
front. -/

/-- A 3D point or vector `{x, y, z}` as produced by the pose detector. -/
structure Vec3 where
  x : ℝ
  y : ℝ
  z : ℝ

/-- Componentwise negation, used to state properties about `v` and `-v`. -/
def Vec3.neg (v : Vec3) : Vec3 := ⟨-v.x, -v.y, -v.z⟩

/-- `radToDeg` from the source: `(rad * 180) / Math.PI`. -/
noncomputable def radToDeg (rad : ℝ) : ℝ := rad * 180 / Real.pi

/-- `calculateMagnitude` from the source: `Math.sqrt(x ** 2 + y ** 2 + z ** 2)`. -/
noncomputable def calculateMagnitude (v : Vec3) : ℝ :=
  Real.sqrt (v.x ^ 2 + v.y ^ 2 + v.z ^ 2)

/-- `calculateAngleBetweenVectors` from the source:
`Math.acos(Math.max(-1, Math.min(1, dot / (mag1 * mag2 + 1e-6))))`. -/
noncomputable def calculateAngleBetweenVectors (v1 v2 : Vec3) : ℝ :=
  let dot := v1.x * v2.x + v1.y * v2.y + v1.z * v2.z
  let mag1 := calculateMagnitude v1
  let mag2 := calculateMagnitude v2
  Real.arccos (max (-1) (min 1 (dot / (mag1 * mag2 + 1 / 1000000))))

/-- `Math.atan2(-dz, -dy)` under ECMA-262 semantics, taking the exact real
differences `dz`, `dy` before negation.  For finite operands IEEE
subtraction gives `+0` exactly when the operands are equal, so a zero
argument of this `Math.atan2` call is always the negation of `+0`, i.e.
`-0`.  ECMA-262 then prescribes: second argument `-dy` positive
(`dy < 0`) → `arctan((-dz)/(-dy)) = arctan(dz/dy)` (a `-0` first argument
gives `-0`, numerically 0); second argument negative (`0 < dy`) →
`arctan(dz/dy) + π` when the first argument is positive (`dz < 0`) and
`arctan(dz/dy) − π` when it is negative or `-0` (`dz ≥ 0`, since
`atan2(-0, x) = -π` for `x < 0`); second argument `-0` (`dy = 0`) → `π/2`
for a positive first argument, `-π/2` for a negative one, and
`atan2(-0, -0) = -π` when `dz = 0` as well. -/
noncomputable def atan2NegNeg (dz dy : ℝ) : ℝ :=
  if dy < 0 then Real.arctan (dz / dy)
  else if 0 < dy then
    (if dz < 0 then Real.arctan (dz / dy) + Real.pi else Real.arctan (dz / dy) - Real.pi)
  else if dz < 0 then Real.pi / 2
  else if 0 < dz then -(Real.pi / 2)
  else -Real.pi

/-- `calculateLumbarFlexionExtension` from the source:
`Math.atan2(-shoulderToHipZ, -shoulderToHipY)` (embedded as `atan2NegNeg`
of the two differences, see its signed-zero convention), converted to
degrees, with a 1° deadband, 0.8 scaling of positive (flexion) angles, and
a final clamp to [-40, 60]. -/
noncomputable def calculateLumbarFlexionExtension (shoulderMid hipMid : Vec3) : ℝ :=
  let shoulderToHipZ := shoulderMid.z - hipMid.z
  let shoulderToHipY := shoulderMid.y - hipMid.y
  let lumbarAngle := radToDeg (atan2NegNeg shoulderToHipZ shoulderToHipY)
  let lumbarAngle := if |lumbarAngle| < 1 then 0 else lumbarAngle
  let lumbarAngle := if 0 < lumbarAngle then lumbarAngle * (4 / 5) else lumbarAngle * 1
  max (-40) (min 60 lumbarAngle)

/-- The moving-average filter state: the private `history` array of the
`AngleFilter` class. -/
structure AngleFilter where
  history : List ℚ
  deriving DecidableEq

/-- `maxHistory` constant of `AngleFilter` (3 samples). -/
def AngleFilter.maxHistory : ℕ := 3

/-- `AngleFilter.filter` from the source: push the new sample, drop the
oldest beyond capacity 3, and return the recency-weighted average
(weights [1], [0.3, 0.7] or [0.2, 0.3, 0.5] keyed to the current length,
oldest first).  Returns the value together with the updated state.  The
empty-history case is unreachable (a sample was just pushed). -/
def AngleFilter.filter (f : AngleFilter) (angle : ℚ) : ℚ × AngleFilter :=
  let history := f.history ++ [angle]
  let history := if AngleFilter.maxHistory < history.length then history.tail else history
  let value :=
    match history with
    | [] => 0
    | [a] => a
    | [a, b] => a * (3 / 10) + b * (7 / 10)
    | a :: b :: c :: _ => a * (2 / 10) + b * (3 / 10) + c * (5 / 10)
  (value, ⟨history⟩)

/-- `AngleFilter.reset` from the source: `this.history = []`. -/
def AngleFilter.reset (_f : AngleFilter) : AngleFilter := ⟨[]⟩

/-- One detected hip-movement phase `{start, end, hipRange}`.  The source
field `end` is a reserved word in Lean and is embedded as `endIdx`. -/
structure Phase where
  start : ℕ
  endIdx : ℕ
  hipRange : ℚ
  deriving DecidableEq

/-- The four-level qualitative stability grade. -/
inductive StabilityGrade where
  | excellent
  | good
  | fair
  | poor
  deriving DecidableEq

/-- The value object returned by `analyzeLumbarStability`. -/
structure StabilityResult where
  hipMovementPhases : List Phase
  lumbarStabilityScore : ℚ
  lumbarExcessiveMovement : ℚ
  hipLumbarRatio : ℚ
  stabilityGrade : StabilityGrade
  deriving DecidableEq

/-- The state of the `DynamicStabilityAnalyzer` class: three parallel
histories of lumbar angles, hip angles and timestamps. -/
structure DynamicStabilityAnalyzer where
  lumbarHistory : List ℚ
  hipHistory : List ℚ
  timeHistory : List ℚ
  deriving DecidableEq

/-- `maxHistory` constant of `DynamicStabilityAnalyzer` (150 samples,
about 5 seconds at 30 fps). -/
def DynamicStabilityAnalyzer.maxHistory : ℕ := 150

/-- `DynamicStabilityAnalyzer.addDataPoint` from the source: push the
three values, then if the capacity is exceeded shift (drop the oldest of)
all three histories. -/
def DynamicStabilityAnalyzer.addDataPoint (st : DynamicStabilityAnalyzer)
    (lumbarAngle hipAngle timestamp : ℚ) : DynamicStabilityAnalyzer :=
  let lumbarHistory := st.lumbarHistory ++ [lumbarAngle]
  let hipHistory := st.hipHistory ++ [hipAngle]
  let timeHistory := st.timeHistory ++ [timestamp]
  if DynamicStabilityAnalyzer.maxHistory < lumbarHistory.length then
    ⟨lumbarHistory.tail, hipHistory.tail, timeHistory.tail⟩
  else
    ⟨lumbarHistory, hipHistory, timeHistory⟩

/-- `DynamicStabilityAnalyzer.reset` from the source: all three histories
are set to `[]`. -/
def DynamicStabilityAnalyzer.reset (_st : DynamicStabilityAnalyzer) :
    DynamicStabilityAnalyzer := ⟨[], [], []⟩

/-- `Math.max(...xs)` over a spread nonempty array; 0 for the empty case
(unreachable in the source, where phases are never empty). -/
def listMax : List ℚ → ℚ
  | [] => 0
  | a :: l => l.foldl max a

/-- `Math.min(...xs)` over a spread nonempty array; 0 for the empty case. -/
def listMin : List ℚ → ℚ
  | [] => 0
  | a :: l => l.foldl min a

/-- `xs.slice(start, end + 1)`: the elements at indices `start..end`. -/
def slicePhase (l : List ℚ) (start endIdx : ℕ) : List ℚ :=
  (l.drop start).take (endIdx + 1 - start)

/-- `calculateHipRangeInPhase` from the source: max minus min of the hip
angles at indices `start..end`. -/
def calculateHipRangeInPhase (hip : List ℚ) (start endIdx : ℕ) : ℚ :=
  listMax (slicePhase hip start endIdx) - listMin (slicePhase hip start endIdx)

/-- `calculateLumbarRangeInPhase` from the source: max minus min of the
lumbar angles at indices `start..end`. -/
def calculateLumbarRangeInPhase (lumbar : List ℚ) (start endIdx : ℕ) : ℚ :=
  listMax (slicePhase lumbar start endIdx) - listMin (slicePhase lumbar start endIdx)

/-- The frame-to-frame hip-angle change `Math.abs(hip[i] - hip[i-1])`
inspected by the phase-detection loop. -/
def hipChangeAt (hip : List ℚ) (i : ℕ) : ℚ :=
  |hip.getD i 0 - hip.getD (i - 1) 0|

/-- The final if of `detectHipMovementPhases`: an in-progress phase open at
the end of the buffer is retained when it is at least 15 frames long. -/
def detectFinish (hip : List ℚ) (inMovement : Bool) (phaseStart : ℕ)
    (phases : List Phase) : List Phase :=
  if inMovement = true ∧ 15 ≤ hip.length - phaseStart then
    phases ++ [⟨phaseStart, hip.length - 1,
      calculateHipRangeInPhase hip phaseStart (hip.length - 1)⟩]
  else phases

/-- The loop of `detectHipMovementPhases`, iterating `i` over the history
while structurally recursing on the remaining fuel.  The top-level call
passes `fuel = hip.length` with `i = 1`, so the fuel runs out only after
the loop condition `i < hip.length` has already failed.  A phase starts
when the change exceeds the 5° threshold, ends when it drops below half
the threshold (2.5°), and is kept only when at least 15 frames long. -/
def detectGo (hip : List ℚ) : ℕ → ℕ → Bool → ℕ → List Phase → List Phase
  | 0, _i, inMovement, phaseStart, phases => detectFinish hip inMovement phaseStart phases
  | fuel + 1, i, inMovement, phaseStart, phases =>
    if i < hip.length then
      if inMovement = false ∧ 5 < hipChangeAt hip i then
        detectGo hip fuel (i + 1) true i phases
      else if inMovement = true ∧ hipChangeAt hip i < 5 / 2 then
        detectGo hip fuel (i + 1) false phaseStart
          (if 15 ≤ i - phaseStart then
            phases ++ [⟨phaseStart, i, calculateHipRangeInPhase hip phaseStart i⟩]
          else phases)
      else
        detectGo hip fuel (i + 1) inMovement phaseStart phases
    else detectFinish hip inMovement phaseStart phases

/-- `detectHipMovementPhases` from the source, over a given hip history. -/
def detectHipMovementPhases (hip : List ℚ) : List Phase :=
  detectGo hip hip.length 1 false 0 []

/-- `DynamicStabilityAnalyzer.analyzeLumbarStability` from the source.
With fewer than 10 hip samples it returns a degraded first/last-delta
estimate (or a fixed neutral result on an empty history); otherwise it
detects hip-movement phases, accumulates per-phase lumbar and hip ranges,
and derives ratio, score, excessive movement and grade. -/
def analyzeLumbarStability (st : DynamicStabilityAnalyzer) : StabilityResult :=
  if st.hipHistory.length < 10 then
    if 0 < st.lumbarHistory.length ∧ 0 < st.hipHistory.length then
      let recentLumbarVariation :=
        if 1 < st.lumbarHistory.length then
          |st.lumbarHistory.getLastD 0 - st.lumbarHistory.headD 0| else 0
      let recentHipVariation :=
        if 1 < st.hipHistory.length then
          |st.hipHistory.getLastD 0 - st.hipHistory.headD 0| else 0
      let ratio := if 0 < recentHipVariation then recentLumbarVariation / recentHipVariation else 0
      let score := max 0 (100 - ratio * 100)
      ⟨[], score, recentLumbarVariation, ratio,
        if 60 ≤ score then StabilityGrade.good
        else if 40 ≤ score then StabilityGrade.fair
        else StabilityGrade.poor⟩
    else
      ⟨[], 50, 0, 0, StabilityGrade.fair⟩
  else
    let hipMovementPhases := detectHipMovementPhases st.hipHistory
    let totals := hipMovementPhases.foldl
      (fun acc phase =>
        (acc.1 + calculateLumbarRangeInPhase st.lumbarHistory phase.start phase.endIdx,
         acc.2 + phase.hipRange))
      (0, 0)
    let totalLumbarVariation := totals.1
    let totalHipMovement := totals.2
    let hipLumbarRatio :=
      if 0 < totalHipMovement then totalLumbarVariation / totalHipMovement else 0
    let lumbarStabilityScore := max 0 (100 - hipLumbarRatio * 100)
    let lumbarExcessiveMovement := max 0 (totalLumbarVariation - totalHipMovement * (3 / 10))
    let stabilityGrade :=
      if 80 ≤ lumbarStabilityScore then StabilityGrade.excellent
      else if 60 ≤ lumbarStabilityScore then StabilityGrade.good
      else if 40 ≤ lumbarStabilityScore then StabilityGrade.fair
      else StabilityGrade.poor
  ⟨hipMovementPhases, lumbarStabilityScore, lumbarExcessiveMovement, hipLumbarRatio,
    stabilityGrade⟩

/-- The module-level mutable singletons of the source file: the global
`angleFilter` and `dynamicStabilityAnalyzer` instances. -/
structure Engine where
  angleFilter : AngleFilter
  dynamicStabilityAnalyzer : DynamicStabilityAnalyzer
  deriving DecidableEq

/-- `resetAngleFilter` from the source: resets both the smoothing filter
and the dynamic stability analyzer. -/
def resetAngleFilter (e : Engine) : Engine :=
  ⟨AngleFilter.reset e.angleFilter, DynamicStabilityAnalyzer.reset e.dynamicStabilityAnalyzer⟩

/-- Specification-side total of the per-phase lumbar (max − min) ranges of
all retained hip-movement phases. -/
def totalLumbarSpec (st : DynamicStabilityAnalyzer) : ℚ :=
  ((detectHipMovementPhases st.hipHistory).map
    (fun p => calculateLumbarRangeInPhase st.lumbarHistory p.start p.endIdx)).sum

/-- Specification-side total of the per-phase hip (max − min) ranges of
all retained hip-movement phases. -/
def totalHipSpec (st : DynamicStabilityAnalyzer) : ℚ :=
  ((detectHipMovementPhases st.hipHistory).map Phase.hipRange).sum

/-- Hip series of the end-to-end scenario of the spec: 150 frames, a
linear sweep 0 → 80° over frames 10–40, flat elsewhere. -/
def c2Hip : List ℚ :=
  (List.range 150).map (fun i =>
    if i ≤ 10 then (0 : ℚ) else if i ≤ 40 then (8 * (i : ℚ) - 80) / 3 else 80)

/-- Lumbar series of the same scenario: a linear sweep 0 → 40° over
frames 10–40, flat elsewhere. -/
def c2Lumbar : List ℚ :=
  (List.range 150).map (fun i =>
    if i ≤ 10 then (0 : ℚ) else if i ≤ 40 then (4 * (i : ℚ) - 40) / 3 else 40)

/-- Analyzer state holding the 150-frame end-to-end scenario. -/
def c2State : DynamicStabilityAnalyzer :=
  ⟨c2Lumbar, c2Hip, (List.range 150).map (fun i => (i : ℚ))⟩

/-- A 22-sample hip history that ramps by 6°/frame for 20 frames and then
plateaus: concrete instance of the single-ramp phase-detection scenario. -/
def rampHip : List ℚ :=
  (List.range 22).map (fun i => if i ≤ 20 then 6 * (i : ℚ) else 120)

/-- Analyzer state holding the single-ramp hip history. -/
def rampState : DynamicStabilityAnalyzer :=
  ⟨List.replicate 22 0, rampHip, List.replicate 22 0⟩

/-- A 17-sample hip history whose frame-to-frame change exceeds 5° only in
one run of 5 frames (deltas 6,6,6,6,6), but then lingers at 3°/frame —
between the 2.5° phase-end threshold and the 5° phase-start threshold —
for 10 frames before flattening. -/
def lingerHip : List ℚ :=
  [0, 6, 12, 18, 24, 30, 33, 36, 39, 42, 45, 48, 51, 54, 57, 60, 60]

/-- Analyzer state holding the lingering-run hip history. -/
def lingerState : DynamicStabilityAnalyzer :=
  ⟨List.replicate 17 0, lingerHip, List.replicate 17 0⟩

/-- An 11-sample hip history with a single 5-frame ramp (deltas of 6°)
followed by a flat plateau. -/
def shortRampHip : List ℚ := [0, 6, 12, 18, 24, 30, 30, 30, 30, 30, 30]

/-- Analyzer state holding the short-ramp hip history. -/
def shortRampState : DynamicStabilityAnalyzer :=
  ⟨List.replicate 11 0, shortRampHip, List.replicate 11 0⟩

/-- A full analyzer state at the 150-sample capacity. -/
def fullState : DynamicStabilityAnalyzer :=
  ⟨List.replicate 150 0, List.replicate 150 0, List.replicate 150 0⟩

/-- A 10-sample all-zero analyzer state (the smallest full-analysis
history). -/
def tenState : DynamicStabilityAnalyzer :=
  ⟨List.replicate 10 0, List.replicate 10 0, List.replicate 10 0⟩

/-- The degraded short-history lumbar estimate of the source: first-to-last
absolute delta (0 when fewer than two samples). -/
def recentLumbarVariationSpec (st : DynamicStabilityAnalyzer) : ℚ :=
  if 1 < st.lumbarHistory.length then
    |st.lumbarHistory.getLastD 0 - st.lumbarHistory.headD 0| else 0

/-- The degraded short-history hip estimate of the source: first-to-last
absolute delta (0 when fewer than two samples). -/
def recentHipVariationSpec (st : DynamicStabilityAnalyzer) : ℚ :=
  if 1 < st.hipHistory.length then
    |st.hipHistory.getLastD 0 - st.hipHistory.headD 0| else 0

/-- Claim C8: for every angle `x` and every prior filter state, calling
`reset()` and then `filter(x)` returns exactly `x`: the first call on an
empty buffer returns the raw sample unchanged. -/
theorem filter_after_reset_returns_input (f : AngleFilter) (x : ℚ) :
    (AngleFilter.filter (AngleFilter.reset f) x).1 = x := rfl

/-- Claim C10: `resetAngleFilter` clears the whole engine: the filter
history becomes empty (so the next `filter(x)` returns `x`) and all three
stability histories become empty (so the next `analyzeLumbarStability()`
returns the neutral default result with no phases, score 50, excessive
movement 0, ratio 0 and grade fair). -/
theorem resetAngleFilter_clears_engine (e : Engine) (x : ℚ) :
    (resetAngleFilter e).angleFilter.history = [] ∧
    (AngleFilter.filter (resetAngleFilter e).angleFilter x).1 = x ∧
    (resetAngleFilter e).dynamicStabilityAnalyzer.lumbarHistory = [] ∧
    (resetAngleFilter e).dynamicStabilityAnalyzer.hipHistory = [] ∧
    (resetAngleFilter e).dynamicStabilityAnalyzer.timeHistory = [] ∧
    analyzeLumbarStability (resetAngleFilter e).dynamicStabilityAnalyzer =
      ⟨[], 50, 0, 0, StabilityGrade.fair⟩ :=
  ⟨rfl, rfl, rfl, rfl, rfl, rfl⟩

/-- Shifting a just-pushed array drops the old front and keeps the new
back element: `(l ++ [x]).tail = l.tail ++ [x]` for nonempty `l`. -/
theorem tail_append_singleton (l : List ℚ) (x : ℚ) (h : l ≠ []) :
    (l ++ [x]).tail = l.tail ++ [x] := by
  cases l with
  | nil => exact absurd rfl h
  | cons a as => rfl

/-- Claim C7: the three parallel histories keep equal lengths bounded by
150 across `addDataPoint`, at the cap the oldest element of each is
evicted (FIFO) while the new one is appended, and `reset` restores all
three to empty. -/
theorem addDataPoint_fifo_invariant (st : DynamicStabilityAnalyzer) (l h t : ℚ) :
    ((st.lumbarHistory.length = st.hipHistory.length ∧
      st.hipHistory.length = st.timeHistory.length ∧
      st.lumbarHistory.length ≤ 150) →
      ((st.addDataPoint l h t).lumbarHistory.length =
          (st.addDataPoint l h t).hipHistory.length ∧
        (st.addDataPoint l h t).hipHistory.length =
          (st.addDataPoint l h t).timeHistory.length ∧
        (st.addDataPoint l h t).lumbarHistory.length ≤ 150) ∧
      (st.lumbarHistory.length = 150 →
        (st.addDataPoint l h t).lumbarHistory = st.lumbarHistory.tail ++ [l] ∧
        (st.addDataPoint l h t).hipHistory = st.hipHistory.tail ++ [h] ∧
        (st.addDataPoint l h t).timeHistory = st.timeHistory.tail ++ [t]) ∧
      (st.lumbarHistory.length < 150 →
        (st.addDataPoint l h t).lumbarHistory = st.lumbarHistory ++ [l] ∧
        (st.addDataPoint l h t).hipHistory = st.hipHistory ++ [h] ∧
        (st.addDataPoint l h t).timeHistory = st.timeHistory ++ [t])) ∧
    (DynamicStabilityAnalyzer.reset st).lumbarHistory = [] ∧
    (DynamicStabilityAnalyzer.reset st).hipHistory = [] ∧
    (DynamicStabilityAnalyzer.reset st).timeHistory = [] := by
  refine ⟨fun hinv => ?_, rfl, rfl, rfl⟩
  obtain ⟨h1, h2, h3⟩ := hinv
  by_cases hcap : st.lumbarHistory.length = 150
  · have hif : DynamicStabilityAnalyzer.maxHistory < (st.lumbarHistory ++ [l]).length := by
      simp [DynamicStabilityAnalyzer.maxHistory, List.length_append, hcap]
    have heq : st.addDataPoint l h t =
        ⟨(st.lumbarHistory ++ [l]).tail, (st.hipHistory ++ [h]).tail,
          (st.timeHistory ++ [t]).tail⟩ := by
      simp only [DynamicStabilityAnalyzer.addDataPoint]
      rw [if_pos hif]
    rw [heq]
    have hlb : st.lumbarHistory ≠ [] := List.ne_nil_of_length_pos (by omega)
    have hhb : st.hipHistory ≠ [] := List.ne_nil_of_length_pos (by omega)
    have htb : st.timeHistory ≠ [] := List.ne_nil_of_length_pos (by omega)
    refine ⟨⟨?_, ?_, ?_⟩, fun _ =>
        ⟨tail_append_singleton _ _ hlb, tail_append_singleton _ _ hhb,
          tail_append_singleton _ _ htb⟩,
      fun hlt => absurd hcap (by omega)⟩
    all_goals simp [List.length_tail, List.length_append]; omega
  · have hif : ¬ DynamicStabilityAnalyzer.maxHistory < (st.lumbarHistory ++ [l]).length := by
      simp [DynamicStabilityAnalyzer.maxHistory, List.length_append]; omega
    have heq : st.addDataPoint l h t =
        ⟨st.lumbarHistory ++ [l], st.hipHistory ++ [h], st.timeHistory ++ [t]⟩ := by
      simp only [DynamicStabilityAnalyzer.addDataPoint]
      rw [if_neg hif]
    rw [heq]
    refine ⟨⟨?_, ?_, ?_⟩, fun hc => absurd hc hcap, fun _ => ⟨rfl, rfl, rfl⟩⟩
    all_goals simp [List.length_append]; omega

/-- Claim C7 witness: at a concrete full state the invariant and the FIFO
eviction hold. -/
theorem addDataPoint_fifo_invariant_witness :
    (fullState.addDataPoint 1 2 3).lumbarHistory.length =
      (fullState.addDataPoint 1 2 3).hipHistory.length ∧
    (fullState.addDataPoint 1 2 3).lumbarHistory =
      fullState.lumbarHistory.tail ++ [1] := by
  have h := addDataPoint_fifo_invariant fullState 1 2 3
  have hinv : fullState.lumbarHistory.length = fullState.hipHistory.length ∧
      fullState.hipHistory.length = fullState.timeHistory.length ∧
      fullState.lumbarHistory.length ≤ 150 := by with_unfolding_all decide
  exact ⟨((h.1 hinv).1).1, ((h.1 hinv).2.1 (by decide)).1⟩

/-- Claim C2 counterexample: on the spec's 150-frame scenario (hip sweeps
0→80° over frames 10–40 while the lumbar angle sweeps 0→40°), the
per-frame hip change is 80/30 ≈ 2.67°, which never exceeds the 5°
phase-start threshold, so no phase is detected: the ratio is 0 (not
≈ 0.5) and the grade is neither fair nor poor. -/
theorem c2_scenario_counterexample :
    (1 / 4 : ℚ) ≤ |(analyzeLumbarStability c2State).hipLumbarRatio - 1 / 2| ∧
    (analyzeLumbarStability c2State).stabilityGrade ≠ StabilityGrade.fair ∧
    (analyzeLumbarStability c2State).stabilityGrade ≠ StabilityGrade.poor := by
  with_unfolding_all decide

/-- Claim C2 as amended: on that scenario the analyzer detects no
hip-movement phases (the sweep is below the 5°/frame threshold), so it
returns ratio 0, score 100 and grade excellent. -/
theorem c2_scenario_actual :
    (analyzeLumbarStability c2State).hipMovementPhases = [] ∧
    (analyzeLumbarStability c2State).hipLumbarRatio = 0 ∧
    (analyzeLumbarStability c2State).lumbarStabilityScore = 100 ∧
    (analyzeLumbarStability c2State).stabilityGrade = StabilityGrade.excellent := by
  with_unfolding_all decide

/-- Claim C3 counterexample: with a single-sample history (fewer than 10
samples) the returned score is 100 ≥ 80 but the grade is good, not
excellent: the short-history branch never grades excellent. -/
theorem c3_grade_map_counterexample :
    80 ≤ (analyzeLumbarStability ⟨[0], [0], [0]⟩).lumbarStabilityScore ∧
    (analyzeLumbarStability ⟨[0], [0], [0]⟩).stabilityGrade ≠ StabilityGrade.excellent := by
  with_unfolding_all decide

/-- Claim C5 counterexample: a one-sample (non-empty, fewer than 10
samples) history has zero first-to-last deltas, yet the returned grade is
good (score 100), not fair as claimed. -/
theorem c5_zero_motion_counterexample :
    |([5] : List ℚ).getLastD 0 - ([5] : List ℚ).headD 0| = 0 ∧
    |([7] : List ℚ).getLastD 0 - ([7] : List ℚ).headD 0| = 0 ∧
    (analyzeLumbarStability ⟨[5], [7], [0]⟩).stabilityGrade = StabilityGrade.good ∧
    (analyzeLumbarStability ⟨[5], [7], [0]⟩).stabilityGrade ≠ StabilityGrade.fair := by
  with_unfolding_all decide

/-- Folding min from a smaller seed stays below folding max from a larger
seed. -/
theorem foldl_min_le_foldl_max (l : List ℚ) :
    ∀ x y : ℚ, x ≤ y → l.foldl min x ≤ l.foldl max y := by
  induction l with
  | nil => exact fun x y h => h
  | cons a l ih =>
    intro x y h
    exact ih (min x a) (max y a)
      (le_trans (min_le_left x a) (le_trans h (le_max_left y a)))

/-- The spread minimum of a list never exceeds its spread maximum. -/
theorem listMin_le_listMax (l : List ℚ) : listMin l ≤ listMax l := by
  cases l with
  | nil => exact le_refl 0
  | cons a l => exact foldl_min_le_foldl_max l a a (le_refl a)

/-- A per-phase (max − min) range is nonnegative. -/
theorem calculateHipRangeInPhase_nonneg (hip : List ℚ) (s e : ℕ) :
    0 ≤ calculateHipRangeInPhase hip s e :=
  sub_nonneg.2 (listMin_le_listMax _)

/-- Every phase produced by the detection loop is either carried in from
the accumulator or has its `hipRange` computed by
`calculateHipRangeInPhase`. -/
theorem detectGo_mem (hip : List ℚ) :
    ∀ (fuel i : ℕ) (inM : Bool) (ps : ℕ) (acc : List Phase) (p : Phase),
      p ∈ detectGo hip fuel i inM ps acc →
      p ∈ acc ∨ ∃ s e, p = ⟨s, e, calculateHipRangeInPhase hip s e⟩ := by
  have hfin : ∀ (inM : Bool) (ps : ℕ) (acc : List Phase) (p : Phase),
      p ∈ detectFinish hip inM ps acc →
      p ∈ acc ∨ ∃ s e, p = ⟨s, e, calculateHipRangeInPhase hip s e⟩ := by
    intro inM ps acc p hp
    unfold detectFinish at hp
    split at hp
    · rcases List.mem_append.1 hp with h | h
      · exact Or.inl h
      · exact Or.inr ⟨ps, hip.length - 1, List.mem_singleton.1 h⟩
    · exact Or.inl hp
  intro fuel
  induction fuel with
  | zero => exact fun i inM ps acc p hp => hfin inM ps acc p hp
  | succ fuel ih =>
    intro i inM ps acc p hp
    unfold detectGo at hp
    by_cases h1 : i < hip.length
    · rw [if_pos h1] at hp
      by_cases h2 : inM = false ∧ 5 < hipChangeAt hip i
      · rw [if_pos h2] at hp
        exact ih (i + 1) true i acc p hp
      · rw [if_neg h2] at hp
        by_cases h3 : inM = true ∧ hipChangeAt hip i < 5 / 2
        · rw [if_pos h3] at hp
          rcases ih (i + 1) false ps _ p hp with h | h
          · by_cases h4 : 15 ≤ i - ps
            · rw [if_pos h4] at h
              rcases List.mem_append.1 h with h' | h'
              · exact Or.inl h'
              · exact Or.inr ⟨ps, i, List.mem_singleton.1 h'⟩
            · rw [if_neg h4] at h
              exact Or.inl h
          · exact Or.inr h
        · rw [if_neg h3] at hp
          exact ih (i + 1) inM ps acc p hp
    · rw [if_neg h1] at hp
      exact hfin inM ps acc p hp

/-- The accumulated hip movement over all detected phases is nonnegative. -/
theorem totalHipSpec_nonneg (st : DynamicStabilityAnalyzer) : 0 ≤ totalHipSpec st := by
  refine List.sum_nonneg ?_
  intro x hx
  rcases List.mem_map.1 hx with ⟨p, hp, rfl⟩
  rcases detectGo_mem st.hipHistory st.hipHistory.length 1 false 0 [] p hp with h | ⟨s, e, rfl⟩
  · exact absurd h (List.not_mem_nil p)
  · exact calculateHipRangeInPhase_nonneg st.hipHistory s e

/-- Folding the pair of per-phase accumulators equals the pair of sums. -/
theorem foldl_ranges_eq (f g : Phase → ℚ) :
    ∀ (phases : List Phase) (a b : ℚ),
      phases.foldl (fun acc p => (acc.1 + f p, acc.2 + g p)) (a, b) =
        (a + (phases.map f).sum, b + (phases.map g).sum) := by
  intro phases
  induction phases with
  | nil => intro a b; simp
  | cons p l ih =>
    intro a b
    simp only [List.foldl_cons, List.map_cons, List.sum_cons, ih, add_assoc]

/-- Full-history branch of `analyzeLumbarStability`, written with the
specification-side totals. -/
theorem analyzeLumbarStability_main (st : DynamicStabilityAnalyzer)
    (hlen : 10 ≤ st.hipHistory.length) :
    analyzeLumbarStability st =
      ⟨detectHipMovementPhases st.hipHistory,
        max 0 (100 -
          (if 0 < totalHipSpec st then totalLumbarSpec st / totalHipSpec st else 0) * 100),
        max 0 (totalLumbarSpec st - totalHipSpec st * (3 / 10)),
        if 0 < totalHipSpec st then totalLumbarSpec st / totalHipSpec st else 0,
        if 80 ≤ max 0 (100 -
            (if 0 < totalHipSpec st then totalLumbarSpec st / totalHipSpec st else 0) * 100)
          then StabilityGrade.excellent
        else if 60 ≤ max 0 (100 -
            (if 0 < totalHipSpec st then totalLumbarSpec st / totalHipSpec st else 0) * 100)
          then StabilityGrade.good
        else if 40 ≤ max 0 (100 -
            (if 0 < totalHipSpec st then totalLumbarSpec st / totalHipSpec st else 0) * 100)
          then StabilityGrade.fair
        else StabilityGrade.poor⟩ := by
  unfold analyzeLumbarStability
  rw [if_neg (by omega)]
  simp only [foldl_ranges_eq, zero_add, totalLumbarSpec, totalHipSpec]

/-- Short-history branch of `analyzeLumbarStability` (non-empty history),
written with the specification-side first/last deltas. -/
theorem analyzeLumbarStability_short (st : DynamicStabilityAnalyzer)
    (hlen : st.hipHistory.length < 10)
    (hl : 0 < st.lumbarHistory.length) (hh : 0 < st.hipHistory.length) :
    analyzeLumbarStability st =
      ⟨[],
        max 0 (100 -
          (if 0 < recentHipVariationSpec st then
            recentLumbarVariationSpec st / recentHipVariationSpec st else 0) * 100),
        recentLumbarVariationSpec st,
        if 0 < recentHipVariationSpec st then
          recentLumbarVariationSpec st / recentHipVariationSpec st else 0,
        if 60 ≤ max 0 (100 -
            (if 0 < recentHipVariationSpec st then
              recentLumbarVariationSpec st / recentHipVariationSpec st else 0) * 100)
          then StabilityGrade.good
        else if 40 ≤ max 0 (100 -
            (if 0 < recentHipVariationSpec st then
              recentLumbarVariationSpec st / recentHipVariationSpec st else 0) * 100)
          then StabilityGrade.fair
        else StabilityGrade.poor⟩ := by
  unfold analyzeLumbarStability
  rw [if_pos hlen, if_pos ⟨hl, hh⟩]
  simp only [recentLumbarVariationSpec, recentHipVariationSpec]

/-- Empty-history branch of `analyzeLumbarStability`: the neutral default. -/
theorem analyzeLumbarStability_default (st : DynamicStabilityAnalyzer)
    (hlen : st.hipHistory.length < 10)
    (hempty : ¬(0 < st.lumbarHistory.length ∧ 0 < st.hipHistory.length)) :
    analyzeLumbarStability st = ⟨[], 50, 0, 0, StabilityGrade.fair⟩ := by
  unfold analyzeLumbarStability
  rw [if_pos hlen, if_neg hempty]

/-- Claim C1: with at least 10 samples, `analyzeLumbarStability` returns
`hipLumbarRatio` equal to the summed per-phase lumbar range divided by the
summed per-phase hip range (0 when the accumulated hip range is 0),
`lumbarStabilityScore = max(0, 100 − ratio·100)`, and
`lumbarExcessiveMovement = max(0, Σlumbar − 0.3·Σhip)`. -/
theorem analyzeLumbarStability_main_formulas (st : DynamicStabilityAnalyzer)
    (hlen : 10 ≤ st.hipHistory.length) :
    (totalHipSpec st = 0 → (analyzeLumbarStability st).hipLumbarRatio = 0) ∧
    (totalHipSpec st ≠ 0 →
      (analyzeLumbarStability st).hipLumbarRatio = totalLumbarSpec st / totalHipSpec st) ∧
    (analyzeLumbarStability st).lumbarStabilityScore =
      max 0 (100 - (analyzeLumbarStability st).hipLumbarRatio * 100) ∧
    (analyzeLumbarStability st).lumbarExcessiveMovement =
      max 0 (totalLumbarSpec st - (3 / 10) * totalHipSpec st) := by
  rw [analyzeLumbarStability_main st hlen]
  dsimp only
  refine ⟨fun h0 => ?_, fun hne => ?_, rfl, ?_⟩
  · rw [h0, if_neg (lt_irrefl 0)]
  · rw [if_pos (lt_of_le_of_ne (totalHipSpec_nonneg st) (Ne.symm hne))]
  · rw [mul_comm (totalHipSpec st) ((3 : ℚ) / 10)]

/-- Claim C1 witness: at the concrete single-ramp state the proved
formulas evaluate as stated. -/
theorem analyzeLumbarStability_main_formulas_witness :
    (analyzeLumbarStability rampState).hipLumbarRatio =
      totalLumbarSpec rampState / totalHipSpec rampState ∧
    (analyzeLumbarStability rampState).lumbarStabilityScore =
      max 0 (100 - (analyzeLumbarStability rampState).hipLumbarRatio * 100) := by
  have h := analyzeLumbarStability_main_formulas rampState (by with_unfolding_all decide)
  exact ⟨h.2.1 (by with_unfolding_all decide), h.2.2.1⟩

/-- Claim C3 as amended: the grade follows the four-level map
(≥80 excellent, ≥60 good, ≥40 fair, else poor) only on full histories
(≥ 10 samples); on shorter non-empty histories the code uses a three-level
map capped at good (never excellent), and on an empty history it returns
score 50 with grade fair. -/
theorem stabilityGrade_from_score (st : DynamicStabilityAnalyzer) :
    (10 ≤ st.hipHistory.length →
      ((80 ≤ (analyzeLumbarStability st).lumbarStabilityScore →
          (analyzeLumbarStability st).stabilityGrade = StabilityGrade.excellent) ∧
        (60 ≤ (analyzeLumbarStability st).lumbarStabilityScore →
          (analyzeLumbarStability st).lumbarStabilityScore < 80 →
          (analyzeLumbarStability st).stabilityGrade = StabilityGrade.good) ∧
        (40 ≤ (analyzeLumbarStability st).lumbarStabilityScore →
          (analyzeLumbarStability st).lumbarStabilityScore < 60 →
          (analyzeLumbarStability st).stabilityGrade = StabilityGrade.fair) ∧
        ((analyzeLumbarStability st).lumbarStabilityScore < 40 →
          (analyzeLumbarStability st).stabilityGrade = StabilityGrade.poor))) ∧
    (st.hipHistory.length < 10 → 0 < st.lumbarHistory.length → 0 < st.hipHistory.length →
      ((60 ≤ (analyzeLumbarStability st).lumbarStabilityScore →
          (analyzeLumbarStability st).stabilityGrade = StabilityGrade.good) ∧
        (40 ≤ (analyzeLumbarStability st).lumbarStabilityScore →
          (analyzeLumbarStability st).lumbarStabilityScore < 60 →
          (analyzeLumbarStability st).stabilityGrade = StabilityGrade.fair) ∧
        ((analyzeLumbarStability st).lumbarStabilityScore < 40 →
          (analyzeLumbarStability st).stabilityGrade = StabilityGrade.poor))) ∧
    (st.hipHistory.length < 10 →
      ¬(0 < st.lumbarHistory.length ∧ 0 < st.hipHistory.length) →
      (analyzeLumbarStability st).lumbarStabilityScore = 50 ∧
        (analyzeLumbarStability st).stabilityGrade = StabilityGrade.fair) := by
  refine ⟨fun hlen => ?_, fun hlen hl hh => ?_, fun hlen hemp => ?_⟩
  · rw [analyzeLumbarStability_main st hlen]
    dsimp only
    refine ⟨fun h80 => if_pos h80, fun h60 h80 => ?_, fun h40 h60 => ?_, fun h40 => ?_⟩
    · rw [if_neg (by linarith), if_pos h60]
    · rw [if_neg (by linarith), if_neg (by linarith), if_pos h40]
    · rw [if_neg (by linarith), if_neg (by linarith), if_neg (by linarith)]
  · rw [analyzeLumbarStability_short st hlen hl hh]
    dsimp only
    refine ⟨fun h60 => if_pos h60, fun h40 h60 => ?_, fun h40 => ?_⟩
    · rw [if_neg (by linarith), if_pos h40]
    · rw [if_neg (by linarith), if_neg (by linarith)]
  · rw [analyzeLumbarStability_default st hlen hemp]
    exact ⟨rfl, rfl⟩

/-- Claim C3 witness: the all-zero 10-sample state scores 100 on the full
branch and is graded excellent. -/
theorem stabilityGrade_from_score_witness :
    (analyzeLumbarStability tenState).stabilityGrade = StabilityGrade.excellent := by
  have h := stabilityGrade_from_score tenState
  exact (h.1 (by with_unfolding_all decide)).1 (by with_unfolding_all decide)

/-- The short-history guarded first/last delta equals the plain first/last
delta on any non-empty lumbar history. -/
theorem recentLumbarVariationSpec_eq (st : DynamicStabilityAnalyzer)
    (hl : 0 < st.lumbarHistory.length) :
    recentLumbarVariationSpec st =
      |st.lumbarHistory.getLastD 0 - st.lumbarHistory.headD 0| := by
  unfold recentLumbarVariationSpec
  cases hls : st.lumbarHistory with
  | nil => rw [hls] at hl; exact absurd hl (lt_irrefl 0)
  | cons a t =>
    cases t with
    | nil => simp
    | cons b t2 => rw [if_pos (by simp only [List.length_cons]; omega)]

/-- The short-history guarded first/last delta equals the plain first/last
delta on any non-empty hip history. -/
theorem recentHipVariationSpec_eq (st : DynamicStabilityAnalyzer)
    (hh : 0 < st.hipHistory.length) :
    recentHipVariationSpec st =
      |st.hipHistory.getLastD 0 - st.hipHistory.headD 0| := by
  unfold recentHipVariationSpec
  cases hhs : st.hipHistory with
  | nil => rw [hhs] at hh; exact absurd hh (lt_irrefl 0)
  | cons a t =>
    cases t with
    | nil => simp
    | cons b t2 => rw [if_pos (by simp only [List.length_cons]; omega)]

/-- Claim C5 as amended: on a non-empty history shorter than 10 samples
the degraded estimate's ratio is the whole-window lumbar first-to-last
delta over the whole-window hip first-to-last delta (0 when the hip delta
is 0), and when neither series shows first-to-last motion the returned
score is 100 and the grade is good (not fair; fair with score 50 occurs
only for the empty history). -/
theorem short_history_degraded_estimate (st : DynamicStabilityAnalyzer)
    (hlen : st.hipHistory.length < 10)
    (hl : 0 < st.lumbarHistory.length) (hh : 0 < st.hipHistory.length) :
    ((|st.hipHistory.getLastD 0 - st.hipHistory.headD 0| ≠ 0 →
        (analyzeLumbarStability st).hipLumbarRatio =
          |st.lumbarHistory.getLastD 0 - st.lumbarHistory.headD 0| /
            |st.hipHistory.getLastD 0 - st.hipHistory.headD 0|) ∧
      (|st.hipHistory.getLastD 0 - st.hipHistory.headD 0| = 0 →
        (analyzeLumbarStability st).hipLumbarRatio = 0)) ∧
    (|st.lumbarHistory.getLastD 0 - st.lumbarHistory.headD 0| = 0 →
      |st.hipHistory.getLastD 0 - st.hipHistory.headD 0| = 0 →
      (analyzeLumbarStability st).lumbarStabilityScore = 100 ∧
        (analyzeLumbarStability st).stabilityGrade = StabilityGrade.good) := by
  have eL := recentLumbarVariationSpec_eq st hl
  have eH := recentHipVariationSpec_eq st hh
  rw [analyzeLumbarStability_short st hlen hl hh]
  dsimp only
  rw [eL, eH]
  refine ⟨⟨fun hne => ?_, fun h0 => ?_⟩, fun hl0 hh0 => ?_⟩
  · rw [if_pos (lt_of_le_of_ne (abs_nonneg _) (Ne.symm hne))]
  · rw [h0, if_neg (lt_irrefl 0)]
  · rw [hl0, hh0, if_neg (lt_irrefl 0)]
    norm_num

/-- Claim C5 witness: a concrete 2-sample history with hip delta 6 and
lumbar delta 2 yields ratio 1/3. -/
theorem short_history_degraded_estimate_witness :
    (analyzeLumbarStability ⟨[1, 3], [2, 8], [0, 1]⟩).hipLumbarRatio = 1 / 3 := by
  have h := (short_history_degraded_estimate ⟨[1, 3], [2, 8], [0, 1]⟩
    (by with_unfolding_all decide) (by with_unfolding_all decide)
    (by with_unfolding_all decide)).1.1 (by with_unfolding_all decide)
  rw [h]
  with_unfolding_all decide

/-- Once the loop index has passed the history, the loop reduces to its
final open-phase check. -/
theorem detectGo_exit (hip : List ℚ) (fuel i : ℕ) (inM : Bool) (ps : ℕ)
    (acc : List Phase) (h : hip.length ≤ i) :
    detectGo hip fuel i inM ps acc = detectFinish hip inM ps acc := by
  cases fuel with
  | zero => rfl
  | succ f =>
    rw [detectGo]
    rw [if_neg (not_lt.2 h)]

/-- Loop step: out of movement, a change above the 5° threshold opens a
phase at the current index. -/
theorem detectGo_step_start (hip : List ℚ) (f i ps : ℕ) (acc : List Phase)
    (h1 : i < hip.length) (h2 : 5 < hipChangeAt hip i) :
    detectGo hip (f + 1) i false ps acc = detectGo hip f (i + 1) true i acc := by
  rw [detectGo]
  rw [if_pos h1, if_pos ⟨rfl, h2⟩]

/-- Loop step: out of movement, a change at most the threshold leaves the
state unchanged. -/
theorem detectGo_step_skip (hip : List ℚ) (f i ps : ℕ) (acc : List Phase)
    (h1 : i < hip.length) (h2 : ¬ 5 < hipChangeAt hip i) :
    detectGo hip (f + 1) i false ps acc = detectGo hip f (i + 1) false ps acc := by
  rw [detectGo]
  rw [if_pos h1, if_neg (fun h => h2 h.2), if_neg (fun h => Bool.noConfusion h.1)]

/-- Loop step: in movement, a change at least 2.5° keeps the phase open. -/
theorem detectGo_step_stay (hip : List ℚ) (f i ps : ℕ) (acc : List Phase)
    (h1 : i < hip.length) (h2 : ¬ hipChangeAt hip i < 5 / 2) :
    detectGo hip (f + 1) i true ps acc = detectGo hip f (i + 1) true ps acc := by
  rw [detectGo]
  rw [if_pos h1, if_neg (fun h => Bool.noConfusion h.1), if_neg (fun h => h2 h.2)]

/-- Loop step: in movement, a change below 2.5° closes the phase; a phase
of at least 15 frames is retained. -/
theorem detectGo_step_close_long (hip : List ℚ) (f i ps : ℕ) (acc : List Phase)
    (h1 : i < hip.length) (h2 : hipChangeAt hip i < 5 / 2) (h3 : 15 ≤ i - ps) :
    detectGo hip (f + 1) i true ps acc =
      detectGo hip f (i + 1) false ps
        (acc ++ [⟨ps, i, calculateHipRangeInPhase hip ps i⟩]) := by
  rw [detectGo]
  rw [if_pos h1, if_neg (fun h => Bool.noConfusion h.1), if_pos ⟨rfl, h2⟩, if_pos h3]

/-- Loop step: in movement, a change below 2.5° closes the phase; a phase
shorter than 15 frames is dropped. -/
theorem detectGo_step_close_short (hip : List ℚ) (f i ps : ℕ) (acc : List Phase)
    (h1 : i < hip.length) (h2 : hipChangeAt hip i < 5 / 2) (h3 : ¬ 15 ≤ i - ps) :
    detectGo hip (f + 1) i true ps acc = detectGo hip f (i + 1) false ps acc := by
  rw [detectGo]
  rw [if_pos h1, if_neg (fun h => Bool.noConfusion h.1), if_pos ⟨rfl, h2⟩, if_neg h3]

/-- Walking the loop across `k` indices whose change never exceeds the
start threshold leaves an out-of-movement state unchanged. -/
theorem detectGo_skip_many (hip : List ℚ) :
    ∀ (k fuel i ps : ℕ) (acc : List Phase),
      (∀ j, i ≤ j → j < i + k → j < hip.length → ¬ 5 < hipChangeAt hip j) →
      detectGo hip fuel i false ps acc = detectGo hip (fuel - k) (i + k) false ps acc := by
  intro k
  induction k with
  | zero => intro fuel i ps acc _; rfl
  | succ k ih =>
    intro fuel i ps acc hflat
    cases fuel with
    | zero => rw [Nat.zero_sub]; rfl
    | succ f =>
      by_cases h1 : i < hip.length
      · rw [detectGo_step_skip hip f i ps acc h1 (hflat i le_rfl (by omega) h1)]
        have := ih f (i + 1) ps acc (fun j hj1 hj2 hj3 => hflat j (by omega) (by omega) hj3)
        rw [this]
        have e1 : f - k = f + 1 - (k + 1) := by omega
        have e2 : i + 1 + k = i + (k + 1) := by omega
        rw [e1, e2]
      · rw [detectGo_exit hip (f + 1) i false ps acc (not_lt.1 h1),
          detectGo_exit hip (f + 1 - (k + 1)) (i + (k + 1)) false ps acc (by omega)]

/-- Walking the loop across `k` indices whose change never drops below the
end threshold leaves an in-movement state unchanged. -/
theorem detectGo_stay_many (hip : List ℚ) :
    ∀ (k fuel i ps : ℕ) (acc : List Phase),
      (∀ j, i ≤ j → j < i + k → j < hip.length → ¬ hipChangeAt hip j < 5 / 2) →
      detectGo hip fuel i true ps acc = detectGo hip (fuel - k) (i + k) true ps acc := by
  intro k
  induction k with
  | zero => intro fuel i ps acc _; rfl
  | succ k ih =>
    intro fuel i ps acc hstay
    cases fuel with
    | zero => rw [Nat.zero_sub]; rfl
    | succ f =>
      by_cases h1 : i < hip.length
      · rw [detectGo_step_stay hip f i ps acc h1 (hstay i le_rfl (by omega) h1)]
        have := ih f (i + 1) ps acc (fun j hj1 hj2 hj3 => hstay j (by omega) (by omega) hj3)
        rw [this]
        have e1 : f - k = f + 1 - (k + 1) := by omega
        have e2 : i + 1 + k = i + (k + 1) := by omega
        rw [e1, e2]
      · rw [detectGo_exit hip (f + 1) i true ps acc (not_lt.1 h1),
          detectGo_exit hip (f + 1 - (k + 1)) (i + (k + 1)) true ps acc (by omega)]

/-- If from the current index onward no change exceeds the start
threshold, an out-of-movement loop returns its accumulator unchanged. -/
theorem detectGo_flat_to_end (hip : List ℚ) :
    ∀ (fuel i ps : ℕ) (acc : List Phase),
      (∀ j, i ≤ j → j < hip.length → ¬ 5 < hipChangeAt hip j) →
      detectGo hip fuel i false ps acc = acc := by
  intro fuel
  induction fuel with
  | zero => intro i ps acc _; rfl
  | succ f ih =>
    intro i ps acc hflat
    by_cases h1 : i < hip.length
    · rw [detectGo_step_skip hip f i ps acc h1 (hflat i le_rfl h1)]
      exact ih (i + 1) ps acc (fun j hj1 hj2 => hflat j (by omega) hj2)
    · rw [detectGo_exit hip (f + 1) i false ps acc (not_lt.1 h1)]
      rfl

/-- A hip history with one ramp of 20 deltas above 5° starting at index
`a`, below 2.5° everywhere else, and at least one plateau sample after the
ramp, yields exactly the one phase `[a, a + 20]`. -/
theorem detect_single_ramp (hip : List ℚ) (a : ℕ)
    (ha : 1 ≤ a) (hlen : a + 21 ≤ hip.length)
    (hramp : ∀ j, j < a + 20 → a ≤ j → 5 < hipChangeAt hip j)
    (hflat : ∀ j, j < hip.length → 1 ≤ j → j < a ∨ a + 20 ≤ j →
      hipChangeAt hip j < 5 / 2) :
    detectHipMovementPhases hip =
      [⟨a, a + 20, calculateHipRangeInPhase hip a (a + 20)⟩] := by
  unfold detectHipMovementPhases
  have h1 : detectGo hip hip.length 1 false 0 [] =
      detectGo hip (hip.length - (a - 1)) a false 0 [] := by
    have := detectGo_skip_many hip (a - 1) hip.length 1 0 []
      (fun j hj1 hj2 hj3 =>
        not_lt.2 (le_of_lt (lt_of_lt_of_le
          (hflat j hj3 hj1 (Or.inl (by omega))) (by norm_num))))
    rw [this]
    have e : 1 + (a - 1) = a := by omega
    rw [e]
  have hfuel1 : hip.length - (a - 1) = (hip.length - a) + 1 := by omega
  have h2 : detectGo hip (hip.length - (a - 1)) a false 0 [] =
      detectGo hip (hip.length - a) (a + 1) true a [] := by
    rw [hfuel1]
    exact detectGo_step_start hip (hip.length - a) a 0 []
      (by omega) (hramp a (by omega) le_rfl)
  have h3 : detectGo hip (hip.length - a) (a + 1) true a [] =
      detectGo hip (hip.length - a - 19) (a + 20) true a [] := by
    have := detectGo_stay_many hip 19 (hip.length - a) (a + 1) a []
      (fun j hj1 hj2 hj3 =>
        not_lt.2 (le_of_lt (lt_trans (by norm_num) (hramp j (by omega) (by omega)))))
    rw [this]
  have hfuel2 : hip.length - a - 19 = (hip.length - a - 20) + 1 := by omega
  have h4 : detectGo hip (hip.length - a - 19) (a + 20) true a [] =
      detectGo hip (hip.length - a - 20) (a + 21) false a
        [⟨a, a + 20, calculateHipRangeInPhase hip a (a + 20)⟩] := by
    rw [hfuel2]
    have := detectGo_step_close_long hip (hip.length - a - 20) (a + 20) a []
      (by omega) (hflat (a + 20) (by omega) (by omega) (Or.inr le_rfl)) (by omega)
    rw [this, List.nil_append]
  have h5 : detectGo hip (hip.length - a - 20) (a + 21) false a
      [⟨a, a + 20, calculateHipRangeInPhase hip a (a + 20)⟩] =
      [⟨a, a + 20, calculateHipRangeInPhase hip a (a + 20)⟩] :=
    detectGo_flat_to_end hip (hip.length - a - 20) (a + 21) a _
      (fun j hj1 hj2 =>
        not_lt.2 (le_of_lt (lt_of_lt_of_le
          (hflat j hj2 (by omega) (Or.inr (by omega))) (by norm_num))))
  rw [h1, h2, h3, h4, h5]

/-- Dropping an open phase at the end of the buffer: with a run of
above-threshold deltas covering `[ps, length)` and no 6-delta run
anywhere, the open phase is shorter than 15 frames and is discarded. -/
theorem detectFinish_drop_short (hip : List ℚ)
    (hno6 : ∀ k, k < hip.length → 1 ≤ k → k + 6 ≤ hip.length →
      ¬(∀ j, j < k + 6 → k ≤ j → 5 < hipChangeAt hip j))
    (ps : ℕ) (acc : List Phase) (hps : 1 ≤ ps)
    (hrun : ∀ j, ps ≤ j → j < hip.length → 5 < hipChangeAt hip j) :
    detectFinish hip true ps acc = acc := by
  unfold detectFinish
  rw [if_neg ?side]
  case side =>
    rintro ⟨-, h15⟩
    by_cases hlp : hip.length ≤ ps
    · omega
    · exact hno6 ps (by omega) hps (by omega)
        (fun j hj6 hpj => hrun j hpj (by omega))

/-- If every delta is either above 5° or below 2.5° and no 6 consecutive
deltas are above 5°, the loop never retains a phase: every phase it opens
closes (or runs off the end of the buffer) in at most 5 frames, short of
the 15-frame minimum. -/
theorem detectGo_no_long_run (hip : List ℚ)
    (hdich : ∀ j, j < hip.length → 1 ≤ j →
      5 < hipChangeAt hip j ∨ hipChangeAt hip j < 5 / 2)
    (hno6 : ∀ k, k < hip.length → 1 ≤ k → k + 6 ≤ hip.length →
      ¬(∀ j, j < k + 6 → k ≤ j → 5 < hipChangeAt hip j)) :
    ∀ (fuel i : ℕ), 1 ≤ i → hip.length < i + fuel →
      (∀ (ps : ℕ) (acc : List Phase), detectGo hip fuel i false ps acc = acc) ∧
      (∀ (ps : ℕ) (acc : List Phase), 1 ≤ ps → ps < i →
        (∀ j, j < i → ps ≤ j → j < hip.length → 5 < hipChangeAt hip j) →
        detectGo hip fuel i true ps acc = acc) := by
  intro fuel
  induction fuel with
  | zero =>
    intro i hi hbound
    refine ⟨fun ps acc => rfl, fun ps acc hps hpsi hrun => ?_⟩
    exact detectFinish_drop_short hip hno6 ps acc hps
      (fun j hpj hjl => hrun j (by omega) hpj hjl)
  | succ f ih =>
    intro i hi hbound
    by_cases h1 : i < hip.length
    · constructor
      · intro ps acc
        rcases hdich i h1 hi with hbig | hsmall
        · rw [detectGo_step_start hip f i ps acc h1 hbig]
          exact (ih (i + 1) (by omega) (by omega)).2 i acc hi (by omega)
            (fun j hj1 hj2 hj3 => by
              have : j = i := by omega
              rw [this]; exact hbig)
        · rw [detectGo_step_skip hip f i ps acc h1 (by
            intro hgt
            exact absurd hsmall (not_lt.2 (by linarith)))]
          exact (ih (i + 1) (by omega) (by omega)).1 ps acc
      · intro ps acc hps hpsi hrun
        rcases hdich i h1 hi with hbig | hsmall
        · rw [detectGo_step_stay hip f i ps acc h1 (not_lt.2 (by linarith))]
          exact (ih (i + 1) (by omega) (by omega)).2 ps acc hps (by omega)
            (fun j hj1 hj2 hj3 => by
              by_cases hji : j = i
              · rw [hji]; exact hbig
              · exact hrun j (by omega) hj2 hj3)
        · have hshort : ¬ 15 ≤ i - ps := by
            intro h15
            exact hno6 ps (by omega) hps (by omega)
              (fun j hj6 hpj => hrun j (by omega) hpj (by omega))
          rw [detectGo_step_close_short hip f i ps acc h1 hsmall hshort]
          exact (ih (i + 1) (by omega) (by omega)).1 ps acc
    · constructor
      · intro ps acc
        rw [detectGo_exit hip (f + 1) i false ps acc (not_lt.1 h1)]
        rfl
      · intro ps acc hps hpsi hrun
        rw [detectGo_exit hip (f + 1) i true ps acc (not_lt.1 h1)]
        exact detectFinish_drop_short hip hno6 ps acc hps
          (fun j hpj hjl => hrun j (by omega) hpj hjl)

/-- The phases field of the analysis result: empty on the short branches,
the detector output on the full branch. -/
theorem analyze_phases_eq (st : DynamicStabilityAnalyzer) :
    (analyzeLumbarStability st).hipMovementPhases =
      if st.hipHistory.length < 10 then []
      else detectHipMovementPhases st.hipHistory := by
  by_cases hlen : st.hipHistory.length < 10
  · rw [if_pos hlen]
    by_cases hne : 0 < st.lumbarHistory.length ∧ 0 < st.hipHistory.length
    · rw [analyzeLumbarStability_short st hlen hne.1 hne.2]
    · rw [analyzeLumbarStability_default st hlen hne]
  · rw [if_neg hlen, analyzeLumbarStability_main st (by omega)]

/-- Claim C4 as amended: (1) a hip history (necessarily ≥ 10 samples) whose
frame-to-frame change exceeds 5° on a run of 20 deltas and stays below
2.5° elsewhere yields exactly one retained phase spanning the ramp;
(2) a history whose change exceeds 5° only in runs of at most 5 deltas
and stays below 2.5° outside those runs yields zero phases, because a
phase is only retained when its duration reaches 15 frames. -/
theorem hip_movement_phase_detection :
    (∀ (st : DynamicStabilityAnalyzer) (a : ℕ),
      1 ≤ a → a + 21 ≤ st.hipHistory.length →
      (∀ j, j < a + 20 → a ≤ j → 5 < hipChangeAt st.hipHistory j) →
      (∀ j, j < st.hipHistory.length → 1 ≤ j → j < a ∨ a + 20 ≤ j →
        hipChangeAt st.hipHistory j < 5 / 2) →
      (analyzeLumbarStability st).hipMovementPhases =
        [⟨a, a + 20, calculateHipRangeInPhase st.hipHistory a (a + 20)⟩]) ∧
    (∀ st : DynamicStabilityAnalyzer,
      (∀ j, j < st.hipHistory.length → 1 ≤ j →
        5 < hipChangeAt st.hipHistory j ∨ hipChangeAt st.hipHistory j < 5 / 2) →
      (∀ k, k < st.hipHistory.length → 1 ≤ k → k + 6 ≤ st.hipHistory.length →
        ¬(∀ j, j < k + 6 → k ≤ j → 5 < hipChangeAt st.hipHistory j)) →
      (analyzeLumbarStability st).hipMovementPhases = []) := by
  constructor
  · intro st a ha hlen hramp hflat
    rw [analyze_phases_eq st, if_neg (by omega)]
    exact detect_single_ramp st.hipHistory a ha hlen hramp hflat
  · intro st hdich hno6
    rw [analyze_phases_eq st]
    by_cases hlen : st.hipHistory.length < 10
    · rw [if_pos hlen]
    · rw [if_neg hlen]
      unfold detectHipMovementPhases
      exact (detectGo_no_long_run st.hipHistory hdich hno6 st.hipHistory.length 1
        le_rfl (by omega)).1 0 []

/-- Claim C4 counterexample: in the lingering 17-sample history the hip
change exceeds 5° only during one run of 5 frames (indices 1–5), yet a
phase is retained, because the change then stays between 2.5° and 5° for
10 more frames, keeping the phase open to the 15-frame minimum. -/
theorem phase_detection_five_frame_counterexample :
    (∀ j, j < lingerState.hipHistory.length → 1 ≤ j →
      5 < hipChangeAt lingerState.hipHistory j → 1 ≤ j ∧ j ≤ 5) ∧
    (analyzeLumbarStability lingerState).hipMovementPhases ≠ [] := by
  with_unfolding_all decide

/-- Claim C4 witness: the 22-sample single-ramp history yields exactly the
phase `[1, 21]` and the 11-sample short-ramp history yields no phase. -/
theorem hip_movement_phase_detection_witness :
    (analyzeLumbarStability rampState).hipMovementPhases =
      [⟨1, 21, calculateHipRangeInPhase rampState.hipHistory 1 21⟩] ∧
    (analyzeLumbarStability shortRampState).hipMovementPhases = [] := by
  constructor
  · exact hip_movement_phase_detection.1 rampState 1 le_rfl
      (by with_unfolding_all decide) (by with_unfolding_all decide)
      (by with_unfolding_all decide)
  · exact hip_movement_phase_detection.2 shortRampState
      (by with_unfolding_all decide) (by with_unfolding_all decide)

/-- With a zero first difference and a negative second difference the
embedded `Math.atan2(-0, positive)` is numerically 0. -/
theorem atan2NegNeg_zero_of_neg (dy : ℝ) (h : dy < 0) : atan2NegNeg 0 dy = 0 := by
  unfold atan2NegNeg
  rw [if_pos h, zero_div, Real.arctan_zero]

/-- Both differences zero: the embedded `Math.atan2(-0, -0)` is `-π`. -/
theorem atan2NegNeg_zero_zero : atan2NegNeg 0 0 = -Real.pi := by
  unfold atan2NegNeg
  rw [if_neg (lt_irrefl 0), if_neg (lt_irrefl 0), if_neg (lt_irrefl 0),
    if_neg (lt_irrefl 0)]

/-- A vertical trunk with the shoulder strictly above the hip (equal depth,
smaller image-space y) has raw angle `arctan 0 = 0` and the deadband
returns exactly 0. -/
theorem lumbar_vertical_zero (s h : Vec3) (hz : s.z = h.z) (hy : s.y < h.y) :
    calculateLumbarFlexionExtension s h = 0 := by
  simp only [calculateLumbarFlexionExtension]
  rw [hz, sub_self, atan2NegNeg_zero_of_neg (s.y - h.y) (by linarith)]
  simp only [radToDeg]
  rw [zero_mul, zero_div]
  norm_num

/-- Shoulder and hip with equal y and z: the source evaluates
`Math.atan2(-0, -0) = -π`, i.e. a raw angle of -180°, which passes the 1°
deadband, is scaled by 1, and clamps to -40. -/
theorem lumbar_coincident_neg_forty (s h : Vec3) (hz : s.z = h.z) (hy : s.y = h.y) :
    calculateLumbarFlexionExtension s h = -40 := by
  simp only [calculateLumbarFlexionExtension]
  rw [hz, hy, sub_self, sub_self, atan2NegNeg_zero_zero]
  have hdeg : radToDeg (-Real.pi) = -180 := by
    unfold radToDeg
    rw [neg_mul, neg_div, mul_comm, mul_div_assoc, div_self Real.pi_ne_zero, mul_one]
  rw [hdeg]
  norm_num

/-- Claim C6 counterexample: at coincident shoulder and hip points the
two IEEE differences are `+0`, their negations are `-0`, and ECMA-262
`Math.atan2(-0, -0)` is `-π`, so the source returns the clamped -40
degrees — not approximately 0. -/
theorem lumbar_coincident_counterexample :
    calculateLumbarFlexionExtension ⟨0, 0, 0⟩ ⟨0, 0, 0⟩ = -40 ∧
    calculateLumbarFlexionExtension ⟨0, 0, 0⟩ ⟨0, 0, 0⟩ ≠ 0 := by
  have h := lumbar_coincident_neg_forty ⟨0, 0, 0⟩ ⟨0, 0, 0⟩ rfl rfl
  rw [h]
  norm_num

/-- Claim C6 as amended: for every pair of input points the lumbar
flexion/extension angle is a well-defined real number clamped to
[-40, 60] degrees; a vertical trunk with the shoulder strictly above the
hip yields exactly 0 degrees; but in the degenerate case where shoulder
and hip share both y and z (in particular coincident points) the
signed-zero path `Math.atan2(-0, -0) = -π` makes the function return -40
degrees instead of ≈ 0. -/
theorem lumbar_angle_range_vertical_coincident (s h : Vec3) :
    (-40 ≤ calculateLumbarFlexionExtension s h ∧
      calculateLumbarFlexionExtension s h ≤ 60) ∧
    (s.z = h.z → s.y < h.y → calculateLumbarFlexionExtension s h = 0) ∧
    (s.z = h.z → s.y = h.y → calculateLumbarFlexionExtension s h = -40) := by
  refine ⟨?_, lumbar_vertical_zero s h, lumbar_coincident_neg_forty s h⟩
  unfold calculateLumbarFlexionExtension
  exact ⟨le_max_left _ _, max_le (by norm_num) (min_le_left _ _)⟩

/-- Claim C6 witness: shoulder directly above the hip gives 0 inside the
clamp interval, and a coincident pair at (1, 2, 3) gives -40. -/
theorem lumbar_angle_range_vertical_coincident_witness :
    (-40 ≤ calculateLumbarFlexionExtension ⟨0, 0, 0⟩ ⟨0, 1, 0⟩ ∧
      calculateLumbarFlexionExtension ⟨0, 0, 0⟩ ⟨0, 1, 0⟩ ≤ 60) ∧
    calculateLumbarFlexionExtension ⟨0, 0, 0⟩ ⟨0, 1, 0⟩ = 0 ∧
    calculateLumbarFlexionExtension ⟨1, 2, 3⟩ ⟨1, 2, 3⟩ = -40 :=
  ⟨(lumbar_angle_range_vertical_coincident ⟨0, 0, 0⟩ ⟨0, 1, 0⟩).1,
    (lumbar_angle_range_vertical_coincident ⟨0, 0, 0⟩ ⟨0, 1, 0⟩).2.1 rfl zero_lt_one,
    (lumbar_angle_range_vertical_coincident ⟨1, 2, 3⟩ ⟨1, 2, 3⟩).2.2 rfl rfl⟩


/-- Antitonicity of arccos below a cosine value: if `cos t ≤ x` for
`t ∈ [0, π]` then `arccos x ≤ t`. -/
theorem arccos_le_of_cos_le (t x : ℝ) (ht0 : 0 ≤ t) (htpi : t ≤ Real.pi)
    (hx : Real.cos t ≤ x) : Real.arccos x ≤ t := by
  have h1 : Real.arcsin (Real.cos t) ≤ Real.arcsin x := Real.monotone_arcsin hx
  have h2 : Real.arccos x ≤ Real.arccos (Real.cos t) := by
    rw [Real.arccos_eq_pi_div_two_sub_arcsin, Real.arccos_eq_pi_div_two_sub_arcsin]
    linarith
  rw [Real.arccos_cos ht0 htpi] at h2
  exact h2

/-- Quartic Taylor estimate: `cos (1/400)` is below `1 - 1e-6`. -/
theorem cos_one_div_400_le : Real.cos (1 / 400) ≤ 1 - 1 / 1000000 := by
  have habs : |(1 / 400 : ℝ)| ≤ 1 := by
    rw [abs_of_nonneg (by norm_num : (0:ℝ) ≤ 1 / 400)]
    norm_num
  have hb := @Real.cos_bound (1 / 400) habs
  have hub := (abs_le.1 hb).2
  rw [abs_of_nonneg (by norm_num : (0:ℝ) ≤ 1 / 400)] at hub
  norm_num at hub ⊢
  linarith

/-- Claim C9 counterexample: at `v = (1/1000, 0, 0)` the ε-guarded cosine
argument is `1e-6 / 2e-6 = 1/2`, so the self-angle is `π/3`, not 0, and
the angle with `-v` is `2π/3`, a full radian short of π. -/
theorem angleBetween_self_counterexample :
    calculateAngleBetweenVectors ⟨1 / 1000, 0, 0⟩ ⟨1 / 1000, 0, 0⟩ ≠ 0 ∧
    1 ≤ Real.pi -
      calculateAngleBetweenVectors ⟨1 / 1000, 0, 0⟩ (Vec3.neg ⟨1 / 1000, 0, 0⟩) := by
  have hms : calculateMagnitude ⟨1 / 1000, 0, 0⟩ * calculateMagnitude ⟨1 / 1000, 0, 0⟩ =
      1 / 1000000 := by
    unfold calculateMagnitude
    rw [Real.mul_self_sqrt (by norm_num)]
    norm_num
  have hmagneg : calculateMagnitude (Vec3.neg ⟨1 / 1000, 0, 0⟩) =
      calculateMagnitude ⟨1 / 1000, 0, 0⟩ := by
    unfold Vec3.neg calculateMagnitude
    norm_num
  have harc : Real.arccos (1 / 2) = Real.pi / 3 := by
    rw [← Real.cos_pi_div_three]
    exact Real.arccos_cos (by positivity) (by linarith [Real.pi_pos])
  constructor
  · show Real.arccos (max (-1) (min 1 ((1 / 1000 * (1 / 1000) + 0 * 0 + 0 * 0) /
      (calculateMagnitude ⟨1 / 1000, 0, 0⟩ * calculateMagnitude ⟨1 / 1000, 0, 0⟩ +
        1 / 1000000)))) ≠ 0
    rw [hms]
    have he : ((1 / 1000 * (1 / 1000 : ℝ) + 0 * 0 + 0 * 0) /
        (1 / 1000000 + 1 / 1000000)) = 1 / 2 := by norm_num
    rw [he, min_eq_right (by norm_num), max_eq_right (by norm_num), harc]
    have hpi := Real.pi_pos
    positivity
  · show 1 ≤ Real.pi - Real.arccos (max (-1) (min 1
      ((1 / 1000 * -(1 / 1000) + 0 * -0 + 0 * -0) /
        (calculateMagnitude ⟨1 / 1000, 0, 0⟩ * calculateMagnitude (Vec3.neg ⟨1 / 1000, 0, 0⟩) +
          1 / 1000000))))
    rw [hmagneg, hms]
    have he : ((1 / 1000 * -(1 / 1000 : ℝ) + 0 * -0 + 0 * -0) /
        (1 / 1000000 + 1 / 1000000)) = -(1 / 2) := by norm_num
    rw [he, min_eq_right (by norm_num), max_eq_right (by norm_num),
      Real.arccos_neg, harc]
    have hpi := Real.pi_gt_three
    linarith

/-- Claim C9 as amended: because of the `1e-6` guard in the denominator the
self-angle is not exactly 0; for vectors of squared magnitude at least 1 it
is at most `1/400 = 0.0025` radians and the angle with the negated vector
is within `1/400` of π. -/
theorem angleBetween_self_near_zero (v : Vec3)
    (hv : 1 ≤ v.x ^ 2 + v.y ^ 2 + v.z ^ 2) :
    calculateAngleBetweenVectors v v ≤ 1 / 400 ∧
    Real.pi - 1 / 400 ≤ calculateAngleBetweenVectors v (Vec3.neg v) := by
  have hM0 : (0:ℝ) < v.x ^ 2 + v.y ^ 2 + v.z ^ 2 := by linarith
  have hden : (0:ℝ) < v.x ^ 2 + v.y ^ 2 + v.z ^ 2 + 1 / 1000000 := by linarith
  have hmag : calculateMagnitude v * calculateMagnitude v =
      v.x ^ 2 + v.y ^ 2 + v.z ^ 2 := by
    unfold calculateMagnitude
    exact Real.mul_self_sqrt (le_of_lt hM0)
  have hmagneg : calculateMagnitude (Vec3.neg v) = calculateMagnitude v := by
    unfold Vec3.neg calculateMagnitude
    norm_num
  have hdot : v.x * v.x + v.y * v.y + v.z * v.z =
      v.x ^ 2 + v.y ^ 2 + v.z ^ 2 := by ring
  have hr1 : (v.x ^ 2 + v.y ^ 2 + v.z ^ 2) /
      (v.x ^ 2 + v.y ^ 2 + v.z ^ 2 + 1 / 1000000) < 1 := by
    rw [div_lt_one hden]
    linarith
  have hr0 : 0 < (v.x ^ 2 + v.y ^ 2 + v.z ^ 2) /
      (v.x ^ 2 + v.y ^ 2 + v.z ^ 2 + 1 / 1000000) := div_pos hM0 hden
  have h1r : 1 - (v.x ^ 2 + v.y ^ 2 + v.z ^ 2) /
      (v.x ^ 2 + v.y ^ 2 + v.z ^ 2 + 1 / 1000000) ≤ 1 / 1000000 := by
    have heq : 1 - (v.x ^ 2 + v.y ^ 2 + v.z ^ 2) /
        (v.x ^ 2 + v.y ^ 2 + v.z ^ 2 + 1 / 1000000) =
        (1 / 1000000) / (v.x ^ 2 + v.y ^ 2 + v.z ^ 2 + 1 / 1000000) := by
      field_simp
    rw [heq, div_le_iff₀ hden]
    nlinarith
  have harcbound : Real.arccos ((v.x ^ 2 + v.y ^ 2 + v.z ^ 2) /
      (v.x ^ 2 + v.y ^ 2 + v.z ^ 2 + 1 / 1000000)) ≤ 1 / 400 := by
    refine arccos_le_of_cos_le (1 / 400) _ (by norm_num)
      (by linarith [Real.pi_gt_three]) ?_
    have := cos_one_div_400_le
    linarith
  constructor
  · show Real.arccos (max (-1) (min 1 ((v.x * v.x + v.y * v.y + v.z * v.z) /
      (calculateMagnitude v * calculateMagnitude v + 1 / 1000000)))) ≤ 1 / 400
    rw [hdot, hmag, min_eq_right (le_of_lt hr1), max_eq_right (by linarith)]
    exact harcbound
  · show Real.pi - 1 / 400 ≤ Real.arccos (max (-1) (min 1
      ((v.x * (Vec3.neg v).x + v.y * (Vec3.neg v).y + v.z * (Vec3.neg v).z) /
        (calculateMagnitude v * calculateMagnitude (Vec3.neg v) + 1 / 1000000))))
    rw [hmagneg, hmag]
    have hdotneg : v.x * (Vec3.neg v).x + v.y * (Vec3.neg v).y + v.z * (Vec3.neg v).z =
        -(v.x ^ 2 + v.y ^ 2 + v.z ^ 2) := by
      unfold Vec3.neg
      ring
    rw [hdotneg, neg_div]
    have hmin : min 1 (-((v.x ^ 2 + v.y ^ 2 + v.z ^ 2) /
        (v.x ^ 2 + v.y ^ 2 + v.z ^ 2 + 1 / 1000000))) =
        -((v.x ^ 2 + v.y ^ 2 + v.z ^ 2) /
          (v.x ^ 2 + v.y ^ 2 + v.z ^ 2 + 1 / 1000000)) :=
      min_eq_right (by linarith)
    have hmax : max (-1) (-((v.x ^ 2 + v.y ^ 2 + v.z ^ 2) /
        (v.x ^ 2 + v.y ^ 2 + v.z ^ 2 + 1 / 1000000))) =
        -((v.x ^ 2 + v.y ^ 2 + v.z ^ 2) /
          (v.x ^ 2 + v.y ^ 2 + v.z ^ 2 + 1 / 1000000)) :=
      max_eq_right (by linarith)
    rw [hmin, hmax, Real.arccos_neg]
    linarith

/-- Claim C9 witness: at the unit vector `(1, 0, 0)` the self-angle is at
most 0.0025 radians and the angle with the negation is within 0.0025 of π. -/
theorem angleBetween_self_near_zero_witness :
    calculateAngleBetweenVectors ⟨1, 0, 0⟩ ⟨1, 0, 0⟩ ≤ 1 / 400 ∧
    Real.pi - 1 / 400 ≤
      calculateAngleBetweenVectors ⟨1, 0, 0⟩ (Vec3.neg ⟨1, 0, 0⟩) :=
  angleBetween_self_near_zero ⟨1, 0, 0⟩ (by norm_num)
